import Mathlib

/-!
Verification of the error-handling module (`src/unnamed/part_000`, the
`ErrorHandlerImpl` class) and of the authentication data model
(`src/claude-code/src/auth/types.ts`) of the repository, as a shallow
embedding in Lean.  JavaScript runtime values that the module inspects are
modelled by the inductive type `JSValue`; JavaScript exceptions are modelled
by the `Except JSValue` monad, so a function that can throw returns
`Except JSValue α` and a `try`/`catch` block becomes a `match` on that
result.
-/

namespace ClaudeCode

/-- JavaScript runtime values, to the extent the error module inspects them:
primitives, strings, `Error` instances (carrying their `message`), BigInt
values (on which `JSON.stringify` throws a `TypeError`), and plain objects
as ordered field lists. -/
inductive JSValue where
  | undefined
  | null
  | bool (b : Bool)
  | number (n : Int)
  | str (s : String)
  | bigint (n : Int)
  | errorObj (message : String)
  | object (fields : List (String × JSValue))

/-- The JavaScript string coercion applied by template literals,
implicit in the source template strings and in the fallback branch
returning the result of the String constructor applied to the error. -/
def jsToString : JSValue → String
  | .undefined => "undefined"
  | .null => "null"
  | .bool b => if b then "true" else "false"
  | .number n => toString n
  | .str s => s
  | .bigint n => toString n
  | .errorObj m => "Error: " ++ m
  | .object _ => "[object Object]"

mutual
/-- The JSON.stringify call of `getErrorMessage` in part_000: returns a JSON
string for ordinary values, returns the undefined value when applied to
undefined, and throws a TypeError on BigInt values. -/
def jsonStringify : JSValue → Except JSValue JSValue
  | .undefined => .ok .undefined
  | .null => .ok (.str "null")
  | .bool b => .ok (.str (if b then "true" else "false"))
  | .number n => .ok (.str (toString n))
  | .str s => .ok (.str ("\"" ++ s ++ "\""))
  | .bigint _ => .error (.errorObj "Do not know how to serialize a BigInt")
  | .errorObj _ => .ok (.str "\x7b\x7d")
  | .object fs =>
    match jsonStringifyFields fs with
    | .ok body => .ok (.str ("\x7b" ++ body ++ "\x7d"))
    | .error e => .error e

/-- Serialization of the field list of a plain object. -/
def jsonStringifyFields : List (String × JSValue) → Except JSValue String
  | [] => .ok ""
  | (k, v) :: rest =>
    match jsonStringify v with
    | .error e => .error e
    | .ok sv =>
      match jsonStringifyFields rest with
      | .error e => .error e
      | .ok srest => .ok ("\"" ++ k ++ "\":" ++ jsToString sv ++ (if rest.isEmpty then "" else ",") ++ srest)
end

/-- JavaScript property access `v.k`: a field of a plain object, the
message property of an Error instance, undefined otherwise. -/
def jsGet (v : JSValue) (k : String) : JSValue :=
  match v with
  | .object fs =>
    match fs.lookup k with
    | some w => w
    | none => .undefined
  | .errorObj m => if k = "message" then .str m else .undefined
  | _ => .undefined

/-- Modelled from the spec: the file defining ErrorLevel (imported by
part_000 as `./types.js`) is not under src/.  Per the spec, severity is
numeric and ordered from most to least severe, with the taxonomy CRITICAL,
then the MAJOR/ERROR/FATAL tier, then MINOR/WARNING, then informational
levels; the numeric codes 1..8 here realize that order. -/
inductive ErrorLevel where
  | CRITICAL
  | MAJOR
  | ERROR
  | FATAL
  | MINOR
  | WARNING
  | INFORMATIONAL
  | DEBUG
deriving DecidableEq

/-- The numeric value of an ErrorLevel enum member. -/
def ErrorLevel.toNat : ErrorLevel → Nat
  | .CRITICAL => 1
  | .MAJOR => 2
  | .ERROR => 3
  | .FATAL => 4
  | .MINOR => 5
  | .WARNING => 6
  | .INFORMATIONAL => 7
  | .DEBUG => 8

/-- Modelled from the spec: the file defining ErrorCategory (imported by
part_000 as `./types.js`) is not under src/.  Per the spec it is an
orthogonal closed classification such as APPLICATION, NETWORK, VALIDATION;
as a TypeScript numeric enum its members carry the codes 0, 1, 2. -/
inductive ErrorCategory where
  | APPLICATION
  | NETWORK
  | VALIDATION
deriving DecidableEq

/-- The numeric value of an ErrorCategory enum member. -/
def ErrorCategory.toNat : ErrorCategory → Nat
  | .APPLICATION => 0
  | .NETWORK => 1
  | .VALIDATION => 2

/-- The reverse enum mapping used by the log line in handleError,
written in the source as the category name looked up in ErrorCategory. -/
def ErrorCategory.name : ErrorCategory → String
  | .APPLICATION => "APPLICATION"
  | .NETWORK => "NETWORK"
  | .VALIDATION => "VALIDATION"

/-- The JavaScript or-default idiom applied to an optional level operand:
an absent operand and the numeric value 0 are falsy and select the
default.  (No member of the modelled ErrorLevel carries the code 0, so the
falsy-zero branch is inert here; it is kept because the source writes the
default with the or operator, whose semantics it is.) -/
def jsOrLevel (x : Option ErrorLevel) (d : ErrorLevel) : ErrorLevel :=
  match x with
  | some l => if l.toNat = 0 then d else l
  | none => d

/-- The JavaScript or-default idiom applied to an optional category operand. -/
def jsOrCategory (x : Option ErrorCategory) (d : ErrorCategory) : ErrorCategory :=
  match x with
  | some c => if c.toNat = 0 then d else c
  | none => d

/-- The ErrorOptions record of part_000, restricted to the fields the
module reads: category, level and context. -/
structure ErrorOptions where
  category : Option ErrorCategory
  level : Option ErrorLevel
  context : Option JSValue

/-- The severity channel of a logger call. -/
inductive LogSeverity where
  | error
  | warn
  | info
  | debug
deriving DecidableEq

/-- A logger call: the channel, the first (string) argument, and the
second (payload) argument. -/
structure LogEntry where
  severity : LogSeverity
  text : String
  payload : JSValue

/-- The in-memory state of an ErrorHandlerImpl instance: the errorCount
map, modelled as the insertion-ordered association list that a JavaScript
Map maintains. -/
structure ErrorManagerState where
  errorCount : List (String × Nat)

/-- The MAX_ERRORS field of ErrorHandlerImpl (declared readonly with
value 100). -/
def MAX_ERRORS : Nat := 100

/-- Whether an ErrorManager operation let the process continue or
terminated it through process.exit. -/
inductive Outcome where
  | normal
  | exit (code : Nat)
deriving DecidableEq

/-- The observable effect of one ErrorManager operation: the state it
leaves behind, the logger calls it made in order, and its process
outcome. -/
structure OpResult where
  state : ErrorManagerState
  logs : List LogEntry
  outcome : Outcome

/-- Lookup in the errorCount map (Map.prototype.get, undefined as none). -/
def mapGet (m : List (String × Nat)) (k : String) : Option Nat :=
  match m with
  | [] => none
  | (k', v) :: rest => if k' = k then some v else mapGet rest k

/-- Update in the errorCount map (Map.prototype.set): an existing key is
updated in place, a fresh key is appended, preserving insertion order. -/
def mapSet (m : List (String × Nat)) (k : String) (v : Nat) : List (String × Nat) :=
  match m with
  | [] => [(k, v)]
  | (k', v') :: rest => if k' = k then (k', v) :: rest else (k', v') :: mapSet rest k v

/-- Translation of ErrorHandlerImpl.getErrorMessage: an Error instance
yields its message, a string yields itself, anything else is serialized
with JSON.stringify inside a try block whose catch falls back to the
String coercion of the value.  The declared TypeScript return type is
string, but the JSON.stringify branch can also yield the undefined value,
so the result is kept as a JSValue. -/
def getErrorMessage (error : JSValue) : Except JSValue JSValue :=
  match error with
  | .errorObj m => .ok (.str m)
  | .str s => .ok (.str s)
  | e =>
    match jsonStringify e with
    | .ok v => .ok v
    | .error _ => .ok (.str (jsToString e))

/-- Translation of ErrorHandlerImpl.formatError: calls the external
formatErrorForDisplay (the parameter fmt, see the note below) inside a
try block; if that throws, returns the basic object holding the extracted
message, the original error and the formatting error.

Modelled from the spec, as far as the formatter itself is concerned: the
file defining formatErrorForDisplay (imported by part_000 as
`./formatter.js`) is not under src/, so the formatter is taken as an
arbitrary, possibly throwing function and every theorem quantifies over
its behaviour. -/
def formatError (fmt : JSValue → Except JSValue JSValue) (error : JSValue)
    (options : ErrorOptions) : Except JSValue JSValue :=
  match fmt error with
  | .ok r => .ok r
  | .error formattingError =>
    match getErrorMessage error with
    | .error e => .error e
    | .ok msg => .ok (.object [("message", msg), ("originalError", error), ("formattingError", formattingError)])

/-- Translation of ErrorHandlerImpl.reportError: Sentry is skipped, the
method only emits a debug logger call recording the message, level and
category it would have reported. -/
def reportError (error : JSValue) (options : ErrorOptions) : List LogEntry :=
  [⟨.debug, "Would report error to monitoring system:",
    .object [("error", jsGet error "message"),
             ("level", match options.level with | some l => .number l.toNat | none => .undefined),
             ("category", match options.category with | some c => .number c.toNat | none => .undefined)]⟩]

/-- Translation of ErrorHandlerImpl.handleError: defaults category and
level with the or operator, builds the occurrence key from category,
level and the extracted message, bumps the errorCount entry under that
key, formats the error, and routes the log call by the numeric level:
at most the MAJOR value, or exactly ERROR or FATAL, goes to the error
channel and on to reportError; exactly MINOR or WARNING goes to the warn
channel; everything else goes to the info channel. -/
def handleError (fmt : JSValue → Except JSValue JSValue) (error : JSValue)
    (options : ErrorOptions) (st : ErrorManagerState) : Except JSValue OpResult :=
  let category := jsOrCategory options.category .APPLICATION
  let level := jsOrLevel options.level .MINOR
  match getErrorMessage error with
  | .error e => .error e
  | .ok msg =>
    let errorKey := toString category.toNat ++ ":" ++ toString level.toNat ++ ":" ++ jsToString msg
    let count := (mapGet st.errorCount errorKey).getD 0 + 1
    let st' : ErrorManagerState := ⟨mapSet st.errorCount errorKey count⟩
    match formatError fmt error options with
    | .error e => .error e
    | .ok formattedError =>
      let levelValue := level.toNat
      if levelValue ≤ ErrorLevel.MAJOR.toNat ∨ level = .ERROR ∨ level = .FATAL then
        .ok ⟨st', ⟨.error, "[" ++ category.name ++ "] " ++ jsToString (jsGet formattedError "message"), formattedError⟩
                  :: reportError formattedError options, .normal⟩
      else if level = .MINOR ∨ level = .WARNING then
        .ok ⟨st', [⟨.warn, "[" ++ category.name ++ "] " ++ jsToString (jsGet formattedError "message"), formattedError⟩], .normal⟩
      else
        .ok ⟨st', [⟨.info, "[" ++ category.name ++ "] " ++ jsToString (jsGet formattedError "message"), formattedError⟩], .normal⟩

/-- Translation of ErrorHandlerImpl.handleFatalError: formats the error at
level CRITICAL and category APPLICATION, logs it on the error channel with
the FATAL ERROR prefix, and calls process.exit with code 1. -/
def handleFatalError (fmt : JSValue → Except JSValue JSValue) (error : JSValue)
    (st : ErrorManagerState) : Except JSValue OpResult :=
  match formatError fmt error ⟨some .APPLICATION, some .CRITICAL, none⟩ with
  | .error e => .error e
  | .ok formattedError => .ok ⟨st, [⟨.error, "FATAL ERROR:", formattedError⟩], .exit 1⟩

/-- Translation of ErrorHandlerImpl.handleUnhandledRejection: formats the
reason at level MAJOR and category APPLICATION with the promise as
context, and logs it on the error channel. -/
def handleUnhandledRejection (fmt : JSValue → Except JSValue JSValue) (reason : JSValue)
    (promise : JSValue) (st : ErrorManagerState) : Except JSValue OpResult :=
  match formatError fmt reason ⟨some .APPLICATION, some .MAJOR, some (.object [("promise", promise)])⟩ with
  | .error e => .error e
  | .ok formattedError => .ok ⟨st, [⟨.error, "Unhandled Promise Rejection:", formattedError⟩], .normal⟩

/-- Translation of ErrorHandlerImpl.handleUncaughtException: formats the
error at level CRITICAL and category APPLICATION and logs it on the error
channel. -/
def handleUncaughtException (fmt : JSValue → Except JSValue JSValue) (error : JSValue)
    (st : ErrorManagerState) : Except JSValue OpResult :=
  match formatError fmt error ⟨some .APPLICATION, some .CRITICAL, none⟩ with
  | .error e => .error e
  | .ok formattedError => .ok ⟨st, [⟨.error, "Uncaught Exception:", formattedError⟩], .normal⟩

/-- The UserError value constructed by createUserError. -/
structure UserError where
  message : String
  options : Option JSValue

/-- Translation of ErrorHandlerImpl.createUserError. -/
def createUserError (message : String) (options : Option JSValue) : UserError :=
  ⟨message, options⟩

/-- Translation of ErrorHandlerImpl.initialize: only a debug logger
call, the state is untouched and the process continues. -/
def managerInit (st : ErrorManagerState) : OpResult :=
  ⟨st, [⟨.debug, "Error manager initialized", .undefined⟩], .normal⟩

/-- The value getErrorMessage extracts, as a pure function; the agreement
lemma getErrorMessage_eq below proves that the extraction never throws and
yields exactly this value. -/
def extractedMessage (error : JSValue) : JSValue :=
  match error with
  | .errorObj m => .str m
  | .str s => .str s
  | e =>
    match jsonStringify e with
    | .ok v => v
    | .error _ => .str (jsToString e)

/-- The category handleError effectively uses for a given options value. -/
def effCategory (options : ErrorOptions) : ErrorCategory :=
  jsOrCategory options.category .APPLICATION

/-- The level handleError effectively uses for a given options value. -/
def effLevel (options : ErrorOptions) : ErrorLevel :=
  jsOrLevel options.level .MINOR

/-- The message component of the occurrence-count key: the extracted
message as the template literal renders it. -/
def msgOf (error : JSValue) : String :=
  jsToString (extractedMessage error)

/-- The occurrence-count key handleError computes for a category, a level
and a rendered message. -/
def errorKey (c : ErrorCategory) (l : ErrorLevel) (msg : String) : String :=
  toString c.toNat ++ ":" ++ toString l.toNat ++ ":" ++ msg

/-- The occurrence-count key a handleError call with the given error and
options uses. -/
def errorKeyOf (options : ErrorOptions) (error : JSValue) : String :=
  errorKey (effCategory options) (effLevel options) (msgOf error)

/-- The state left by one handleError call (its only state effect is on
the errorCount map, identical in each routing branch; the dead fallback
arm covers the throw case that the claims prove unreachable). -/
def stepState (fmt : JSValue → Except JSValue JSValue) (error : JSValue)
    (options : ErrorOptions) (st : ErrorManagerState) : ErrorManagerState :=
  match handleError fmt error options st with
  | .ok r => r.state
  | .error _ => st

/-- The state after n repeated handleError calls with the same arguments. -/
def afterN (fmt : JSValue → Except JSValue JSValue) (error : JSValue)
    (options : ErrorOptions) : Nat → ErrorManagerState → ErrorManagerState
  | 0, st => st
  | n + 1, st => afterN fmt error options n (stepState fmt error options st)

/-- The state after a sequence of handleError calls, one per listed error
value, all with the same options. -/
def feedAll (fmt : JSValue → Except JSValue JSValue) (options : ErrorOptions)
    (errors : List JSValue) (st : ErrorManagerState) : ErrorManagerState :=
  errors.foldl (fun s e => stepState fmt e options s) st

/-- The severity channel of the first logger call of an operation. -/
def mainSeverity (r : OpResult) : Option LogSeverity :=
  r.logs.head?.map (·.severity)

/-- Whether the operation forwarded the error to reportError, observed
through the debug-channel log call only reportError emits inside
handleError. -/
def reportedFlag (r : OpResult) : Bool :=
  r.logs.any (fun e => e.severity == .debug)

/-- The routing the claim describes, stated from its words: a level at or
more severe than MAJOR (numerically at most it, severity being ordered
most to least severe), or literally ERROR or FATAL, goes to the error
channel; MINOR or WARNING goes to the warn channel; every other level
goes to the info channel. -/
def claimSeverity (l : ErrorLevel) : LogSeverity :=
  if l.toNat ≤ ErrorLevel.MAJOR.toNat ∨ l = .ERROR ∨ l = .FATAL then .error
  else if l = .MINOR ∨ l = .WARNING then .warn
  else .info

/-- Whether the claim says the level is forwarded to reportError. -/
def claimReported (l : ErrorLevel) : Bool :=
  decide (l.toNat ≤ ErrorLevel.MAJOR.toNat ∨ l = .ERROR ∨ l = .FATAL)

/-- The AuthToken record of src/claude-code/src/auth/types.ts. -/
structure AuthToken where
  accessToken : String
  refreshToken : Option String
  expiresAt : Nat
  tokenType : String
  scope : String
  id : Option String
deriving DecidableEq

/-- The AuthMethod enum of auth/types.ts (string-valued members api_key
and oauth). -/
inductive AuthMethod where
  | api_key
  | oauth
deriving DecidableEq

/-- The AuthState closed string set of auth/types.ts. -/
inductive AuthState where
  | initial
  | authenticating
  | authenticated
  | failed
  | refreshing
  | expired
  | unauthenticated
deriving DecidableEq

/-- The OAuthConfig record of auth/types.ts. -/
structure OAuthConfig where
  clientId : String
  clientSecret : Option String
  authorizationEndpoint : String
  tokenEndpoint : String
  redirectUri : String
  scopes : List String
  responseType : String
  usePkce : Option Bool
deriving DecidableEq

/-- The AuthConfig record of auth/types.ts. -/
structure AuthConfig where
  apiKey : Option String
  oauth : Option OAuthConfig
  preferredMethod : Option AuthMethod
  autoRefresh : Option Bool
  tokenRefreshThreshold : Option Nat
  maxRetryAttempts : Option Nat
deriving DecidableEq

/-- The AuthResult record of auth/types.ts. -/
structure AuthResult where
  success : Bool
  method : Option AuthMethod
  token : Option AuthToken
  state : AuthState
  error : Option String
deriving DecidableEq

/-- Modelled from the spec: the AuthManager implementation is not under
src/ (only auth/types.ts and the build-fix notes are).  Method selection
follows the spec: an explicit hint, else the configured preferredMethod,
else the API key when one is configured, else OAuth. -/
def selectMethod (hint : Option AuthMethod) (config : AuthConfig) : AuthMethod :=
  match hint with
  | some m => m
  | none =>
    match config.preferredMethod with
    | some m => m
    | none => if config.apiKey.isSome then .api_key else .oauth

/-- Modelled from the spec: the AuthManager implementation is not under
src/.  The authenticate operation selects a method with selectMethod and
dispatches: the OAuth branch guards a missing oauth configuration with
the failed result quoted in the spec and in INITIAL_BUILD_FIX.md before
invoking the flow; the flows themselves (absent from src/) are abstract
parameters. -/
def authenticate (performOAuthFlow : OAuthConfig → Except JSValue AuthResult)
    (apiKeyFlow : Option String → Except JSValue AuthResult)
    (hint : Option AuthMethod) (config : AuthConfig) : Except JSValue AuthResult :=
  match selectMethod hint config with
  | .oauth =>
    match config.oauth with
    | none => .ok ⟨false, none, none, .failed, some "OAuth configuration is missing"⟩
    | some oc => performOAuthFlow oc
  | .api_key => apiKeyFlow config.apiKey

/-- Modelled from the spec: no TokenStorage implementation is under src/
(auth/types.ts only declares the interface).  The contract model is a
key-to-token map; each operation is atomic on its key. -/
structure TokenStoreModel where
  tokens : List (String × AuthToken)
deriving DecidableEq

/-- Contract model of TokenStorage.saveToken. -/
def saveToken (s : TokenStoreModel) (k : String) (t : AuthToken) : TokenStoreModel :=
  ⟨(k, t) :: s.tokens.filter (fun p => p.1 ≠ k)⟩

/-- Contract model of TokenStorage.getToken. -/
def getToken (s : TokenStoreModel) (k : String) : Option AuthToken :=
  match s.tokens.find? (fun p => p.1 = k) with
  | some p => some p.2
  | none => none

/-- Contract model of TokenStorage.deleteToken. -/
def deleteToken (s : TokenStoreModel) (k : String) : TokenStoreModel :=
  ⟨s.tokens.filter (fun p => p.1 ≠ k)⟩

/-- Contract model of TokenStorage.clearTokens. -/
def clearTokens (_s : TokenStoreModel) : TokenStoreModel :=
  ⟨[]⟩

/-- Modelled from the spec: the refresh coordination of AuthManager is
not under src/.  Per the spec, scheduling is single-threaded and
cooperative, and getValidToken guards its refresh with an in-flight
marker: the phase of one caller of getValidToken on a token that needs
refresh. -/
inductive CallerPhase where
  | start
  | awaitingShared
  | awaitingNetwork
  | finished
deriving DecidableEq

/-- Modelled from the spec: the shared state of one AuthManager instance
with two concurrent getValidToken callers on one token key — whether the
token has been refreshed, the in-flight-refresh marker, the number of
underlying refresh exchanges started, and each caller's phase. -/
structure SFState where
  tokenFresh : Bool
  inFlight : Bool
  exchanges : Nat
  phase0 : CallerPhase
  phase1 : CallerPhase
deriving DecidableEq

/-- The phase of a caller (false is the first caller, true the second). -/
def SFState.phase (s : SFState) (c : Bool) : CallerPhase :=
  if c then s.phase1 else s.phase0

/-- Replace a caller's phase. -/
def SFState.setPhase (s : SFState) (c : Bool) (p : CallerPhase) : SFState :=
  if c then { s with phase1 := p } else { s with phase0 := p }

/-- An event of the cooperative schedule: a caller runs its next
synchronous segment, or the in-flight network exchange completes. -/
inductive SFEvent where
  | run (c : Bool)
  | complete
deriving DecidableEq

/-- Release a caller awaiting the shared refresh result on completion. -/
def releasePhase : CallerPhase → CallerPhase
  | .awaitingShared => .finished
  | .awaitingNetwork => .finished
  | p => p

/-- Modelled from the spec: one scheduling step.  A caller whose first
segment runs returns at once when the token is already fresh, awaits the
shared in-flight result when the marker is set, and otherwise sets the
marker and starts the one underlying refresh exchange; completion of the
exchange clears the marker in its guaranteed-cleanup block, marks the
token fresh, and resolves every awaiting caller with the shared result. -/
def sfStep (s : SFState) (ev : SFEvent) : SFState :=
  match ev with
  | .run c =>
    match s.phase c with
    | .start =>
      if s.tokenFresh then s.setPhase c .finished
      else if s.inFlight then s.setPhase c .awaitingShared
      else { s.setPhase c .awaitingNetwork with inFlight := true, exchanges := s.exchanges + 1 }
    | _ => s
  | .complete =>
    if s.inFlight then
      { s with inFlight := false, tokenFresh := true,
               phase0 := releasePhase s.phase0, phase1 := releasePhase s.phase1 }
    else s

/-- The initial state: the token needs refresh, no refresh in flight,
both callers about to run. -/
def sfInit : SFState :=
  ⟨false, false, 0, .start, .start⟩

/-- Execution of a whole schedule from the initial state. -/
def sfExec (evs : List SFEvent) : SFState :=
  evs.foldl sfStep sfInit

/-- A concrete formatter behaviour used for closed instances: it returns
the error value unchanged. -/
def idFormatter : JSValue → Except JSValue JSValue :=
  fun v => .ok v

/-- n pairwise distinct string error values (of pairwise distinct
lengths). -/
def distinctMessages (n : Nat) : List JSValue :=
  (List.range n).map (fun i => .str (String.mk (List.replicate i 'a')))

/-- The invariant of the single-flight model: an exchange has been
started exactly when the marker is set or the token is already fresh,
and a finished caller witnesses that exactly one exchange ran. -/
def sfInv (s : SFState) : Prop :=
  (s.inFlight = false → s.tokenFresh = false → s.exchanges = 0) ∧
  (s.tokenFresh = true → s.exchanges = 1) ∧
  (s.inFlight = true → s.exchanges = 1) ∧
  (s.phase0 = .finished → s.exchanges = 1) ∧
  (s.phase1 = .finished → s.exchanges = 1)

/-- The message extraction never throws and yields extractedMessage. -/
theorem getErrorMessage_eq (e : JSValue) : getErrorMessage e = .ok (extractedMessage e) := by
  cases e <;> first
    | rfl
    | (simp only [getErrorMessage, extractedMessage]
       split <;> rfl)

/-- formatError never throws: either the formatter's record or the
fallback record is returned. -/
theorem formatError_ok (fmt : JSValue → Except JSValue JSValue) (e : JSValue)
    (opts : ErrorOptions) : ∃ fd, formatError fmt e opts = .ok fd := by
  unfold formatError
  cases h : fmt e with
  | ok r => exact ⟨r, rfl⟩
  | error fe => rw [getErrorMessage_eq]; exact ⟨_, rfl⟩

/-- Workhorse shape of a handleError call: it returns normally, and its
only state effect is bumping the errorCount entry of the computed key. -/
theorem handleError_shape (fmt : JSValue → Except JSValue JSValue) (e : JSValue)
    (opts : ErrorOptions) (st : ErrorManagerState) :
    ∃ r, handleError fmt e opts st = .ok r ∧
      r.state = ⟨mapSet st.errorCount (errorKeyOf opts e)
                   ((mapGet st.errorCount (errorKeyOf opts e)).getD 0 + 1)⟩ ∧
      r.outcome = .normal := by
  obtain ⟨fd, hfd⟩ := formatError_ok fmt e opts
  simp only [handleError, getErrorMessage_eq, hfd, errorKeyOf, errorKey, effCategory, effLevel,
    msgOf]
  split
  · exact ⟨_, rfl, rfl, rfl⟩
  · split
    · exact ⟨_, rfl, rfl, rfl⟩
    · exact ⟨_, rfl, rfl, rfl⟩

/-- Looking up the key just set yields the value set. -/
theorem mapGet_set_self (m : List (String × Nat)) (k : String) (v : Nat) :
    mapGet (mapSet m k v) k = some v := by
  induction m with
  | nil => simp [mapGet, mapSet]
  | cons p rest ih =>
    by_cases h : p.1 = k
    · simp [mapGet, mapSet, h]
    · simp [mapGet, mapSet, h, ih]

/-- Setting one key leaves lookups of any other key unchanged. -/
theorem mapGet_set_other (m : List (String × Nat)) (k k' : String) (v : Nat)
    (h : k ≠ k') : mapGet (mapSet m k v) k' = mapGet m k' := by
  induction m with
  | nil => simp [mapGet, mapSet, h]
  | cons p rest ih =>
    rcases p with ⟨pk, pv⟩
    by_cases hp : pk = k
    · subst hp
      simp [mapGet, mapSet, h]
    · simp [mapGet, mapSet, hp, ih]

/-- Setting a fresh key appends one entry. -/
theorem mapSet_length_fresh (m : List (String × Nat)) (k : String) (v : Nat)
    (h : mapGet m k = none) : (mapSet m k v).length = m.length + 1 := by
  induction m with
  | nil => simp [mapSet]
  | cons p rest ih =>
    by_cases hp : p.1 = k
    · simp [mapGet, hp] at h
    · simp only [mapGet, hp, if_false] at h
      simp [mapSet, hp, ih h]

/-- One handleError call rewrites the state by bumping the key's entry. -/
theorem stepState_eq (fmt : JSValue → Except JSValue JSValue) (e : JSValue)
    (opts : ErrorOptions) (st : ErrorManagerState) :
    stepState fmt e opts st = ⟨mapSet st.errorCount (errorKeyOf opts e)
      ((mapGet st.errorCount (errorKeyOf opts e)).getD 0 + 1)⟩ := by
  obtain ⟨r, hr, hstate, _⟩ := handleError_shape fmt e opts st
  simp [stepState, hr, hstate]

/-- After n repeated identical handleError calls the key's count has
grown by exactly n. -/
theorem afterN_count (fmt : JSValue → Except JSValue JSValue) (e : JSValue)
    (opts : ErrorOptions) (n : Nat) (st : ErrorManagerState) :
    (mapGet (afterN fmt e opts n st).errorCount (errorKeyOf opts e)).getD 0 =
      (mapGet st.errorCount (errorKeyOf opts e)).getD 0 + n ∧
    (1 ≤ n → mapGet (afterN fmt e opts n st).errorCount (errorKeyOf opts e) =
      some ((mapGet st.errorCount (errorKeyOf opts e)).getD 0 + n)) := by
  induction n generalizing st with
  | zero => simp [afterN]
  | succ n ih =>
    have hstep := stepState_eq fmt e opts st
    have hset := mapGet_set_self st.errorCount (errorKeyOf opts e)
      ((mapGet st.errorCount (errorKeyOf opts e)).getD 0 + 1)
    obtain ⟨ih1, ih2⟩ := ih (stepState fmt e opts st)
    rw [hstep] at ih1 ih2
    simp only [hset, Option.getD_some] at ih1 ih2
    simp only [afterN]
    rw [hstep]
    constructor
    · rw [ih1]
      omega
    · intro _
      rcases Nat.eq_zero_or_pos n with hn | hn
      · subst hn
        simp [afterN, hset]
      · rw [ih2 hn]
        congr 1
        omega

/-- Splitting at the first colon is unambiguous when the prefix holds no
colon. -/
theorem sep_inj : ∀ (a a' r r' : List Char), ':' ∉ a → ':' ∉ a' →
    a ++ ':' :: r = a' ++ ':' :: r' → a = a' ∧ r = r' := by
  intro a
  induction a with
  | nil =>
    intro a' r r' _ ha' h
    cases a' with
    | nil => simpa using h
    | cons c t =>
      simp only [List.nil_append, List.cons_append, List.cons.injEq] at h
      obtain ⟨h1, _⟩ := h
      rw [← h1] at ha'
      simp at ha'
  | cons c t iha =>
    intro a' r r' ha ha' h
    cases a' with
    | nil =>
      simp only [List.nil_append, List.cons_append, List.cons.injEq] at h
      obtain ⟨h1, _⟩ := h
      rw [h1] at ha
      simp at ha
    | cons c' t' =>
      simp only [List.cons_append, List.cons.injEq] at h
      obtain ⟨h1, h2⟩ := h
      have ht : ':' ∉ t := fun hx => ha (List.mem_cons_of_mem _ hx)
      have ht' : ':' ∉ t' := fun hx => ha' (List.mem_cons_of_mem _ hx)
      obtain ⟨he, hr⟩ := iha t' r r' ht ht' h2
      exact ⟨by rw [h1, he], hr⟩

/-- The rendered category codes hold no colon. -/
theorem catCode_colonFree (c : ErrorCategory) : ':' ∉ (toString c.toNat).data := by
  cases c <;> decide

/-- The rendered level codes hold no colon. -/
theorem lvlCode_colonFree (l : ErrorLevel) : ':' ∉ (toString l.toNat).data := by
  cases l <;> decide

/-- The rendered category codes are distinct. -/
theorem catCode_inj (c c' : ErrorCategory)
    (h : (toString c.toNat).data = (toString c'.toNat).data) : c = c' := by
  cases c <;> cases c' <;> first
    | rfl
    | (exfalso; revert h; decide)

/-- The rendered level codes are distinct. -/
theorem lvlCode_inj (l l' : ErrorLevel)
    (h : (toString l.toNat).data = (toString l'.toNat).data) : l = l' := by
  cases l <;> cases l' <;> first
    | rfl
    | (exfalso; revert h; decide)

/-- The occurrence-count key determines its category, level and message:
distinct triples always produce distinct keys. -/
theorem errorKey_inj (c c' : ErrorCategory) (l l' : ErrorLevel) (m m' : String)
    (h : errorKey c l m = errorKey c' l' m') : c = c' ∧ l = l' ∧ m = m' := by
  unfold errorKey at h
  have hd := congrArg String.data h
  simp only [String.data_append, List.append_assoc, List.singleton_append] at hd
  obtain ⟨hc, hrest⟩ := sep_inj _ _ _ _ (catCode_colonFree c) (catCode_colonFree c') hd
  obtain ⟨hl, hm⟩ := sep_inj _ _ _ _ (lvlCode_colonFree l) (lvlCode_colonFree l') hrest
  exact ⟨catCode_inj c c' hc, lvlCode_inj l l' hl, String.ext hm⟩

/-- Feeding errors with pairwise distinct keys, all fresh for the current
state, grows the errorCount map by one entry per call. -/
theorem feedAll_length (fmt : JSValue → Except JSValue JSValue) (opts : ErrorOptions) :
    ∀ (msgs : List JSValue) (st : ErrorManagerState),
    msgs.Pairwise (fun a b => errorKeyOf opts a ≠ errorKeyOf opts b) →
    (∀ m ∈ msgs, mapGet st.errorCount (errorKeyOf opts m) = none) →
    (feedAll fmt opts msgs st).errorCount.length = st.errorCount.length + msgs.length := by
  intro msgs
  induction msgs with
  | nil =>
    intro st _ _
    simp [feedAll]
  | cons e rest ih =>
    intro st hpw habs
    obtain ⟨hhd, htl⟩ := List.pairwise_cons.mp hpw
    have he : mapGet st.errorCount (errorKeyOf opts e) = none :=
      habs e (List.mem_cons_self e rest)
    have hstep := stepState_eq fmt e opts st
    have hlen : (stepState fmt e opts st).errorCount.length = st.errorCount.length + 1 := by
      rw [hstep]
      exact mapSet_length_fresh _ _ _ he
    have habs' : ∀ m ∈ rest,
        mapGet (stepState fmt e opts st).errorCount (errorKeyOf opts m) = none := by
      intro m hm
      rw [hstep]
      show mapGet (mapSet st.errorCount (errorKeyOf opts e) _) (errorKeyOf opts m) = none
      rw [mapGet_set_other _ _ _ _ (hhd m hm)]
      exact habs m (List.mem_cons_of_mem e hm)
    have hfeed : feedAll fmt opts (e :: rest) st = feedAll fmt opts rest (stepState fmt e opts st) := rfl
    rw [hfeed, ih (stepState fmt e opts st) htl habs', hlen]
    simp only [List.length_cons]
    omega

/-- The keys of the distinct string messages are pairwise distinct under
the default options. -/
theorem distinctMessages_pairwise (n : Nat) :
    (distinctMessages n).Pairwise
      (fun a b => errorKeyOf ⟨none, none, none⟩ a ≠ errorKeyOf ⟨none, none, none⟩ b) := by
  have h0 : (List.range n).Pairwise (fun a b => a ≠ b) := List.nodup_range n
  refine List.Pairwise.map _ ?_ h0
  intro i j hij hkey
  obtain ⟨_, _, hm⟩ := errorKey_inj _ _ _ _ _ _ hkey
  simp only [msgOf, extractedMessage, jsToString] at hm
  have := congrArg (fun s => s.data.length) hm
  simp only [List.length_replicate] at this
  exact hij this

/-- C5 evaluation: one hundred one handleError calls with pairwise
distinct messages leave one hundred one distinct keys in the errorCount
map, exceeding the declared MAX_ERRORS bound of one hundred; the code
never consults MAX_ERRORS and never evicts. -/
theorem errorCount_exceeds_MAX_ERRORS :
    (feedAll idFormatter ⟨none, none, none⟩ (distinctMessages (MAX_ERRORS + 1))
        ⟨[]⟩).errorCount.length = MAX_ERRORS + 1 ∧
    MAX_ERRORS < MAX_ERRORS + 1 := by
  constructor
  · have habs : ∀ m ∈ distinctMessages (MAX_ERRORS + 1),
        mapGet (ErrorManagerState.mk []).errorCount (errorKeyOf ⟨none, none, none⟩ m) = none := by
      intro m _
      rfl
    have := feedAll_length idFormatter ⟨none, none, none⟩ (distinctMessages (MAX_ERRORS + 1))
      ⟨[]⟩ (distinctMessages_pairwise (MAX_ERRORS + 1)) habs
    simpa [distinctMessages] using this
  · exact Nat.lt_succ_self MAX_ERRORS

/-- C1: for every input value and any options, handleError returns
normally (never throws), whatever the formatter does; and when the
formatter throws, formatError falls back to the minimal record holding
the extracted message, the original error and the formatting failure
instead of propagating the exception. -/
theorem handleError_never_throws (fmt : JSValue → Except JSValue JSValue) (e : JSValue)
    (opts : ErrorOptions) (st : ErrorManagerState) :
    (∃ r, handleError fmt e opts st = .ok r) ∧
    ∀ fe, fmt e = .error fe →
      formatError fmt e opts =
        .ok (.object [("message", extractedMessage e), ("originalError", e),
                      ("formattingError", fe)]) := by
  constructor
  · obtain ⟨r, hr, _, _⟩ := handleError_shape fmt e opts st
    exact ⟨r, hr⟩
  · intro fe hfe
    simp [formatError, hfe, getErrorMessage_eq]

/-- Witness for C1 at a throwing formatter and a BigInt error value (the
shape on which even JSON.stringify throws). -/
theorem handleError_never_throws_witness :
    (∃ r, handleError (fun _ => .error .null) (.bigint 1) ⟨none, none, none⟩ ⟨[]⟩ = .ok r) ∧
    ∀ fe, (fun (_ : JSValue) => (.error .null : Except JSValue JSValue)) (.bigint 1) = .error fe →
      formatError (fun _ => .error .null) (.bigint 1) ⟨none, none, none⟩ =
        .ok (.object [("message", extractedMessage (.bigint 1)), ("originalError", .bigint 1),
                      ("formattingError", fe)]) :=
  handleError_never_throws (fun _ => .error .null) (.bigint 1) ⟨none, none, none⟩ ⟨[]⟩

/-- C3: handleError routes by severity exactly as the claim states: a
level at or more severe than MAJOR, or literally ERROR or FATAL, is
logged on the error channel and forwarded to reportError; MINOR or
WARNING is logged on the warn channel; every other level is logged on
the info channel. -/
theorem handleError_routes_by_severity (fmt : JSValue → Except JSValue JSValue) (e : JSValue)
    (c : Option ErrorCategory) (l : ErrorLevel) (ctx : Option JSValue)
    (st : ErrorManagerState) :
    ∃ r, handleError fmt e ⟨c, some l, ctx⟩ st = .ok r ∧
      mainSeverity r = some (claimSeverity l) ∧
      reportedFlag r = claimReported l := by
  obtain ⟨fd, hfd⟩ := formatError_ok fmt e ⟨c, some l, ctx⟩
  simp only [handleError, getErrorMessage_eq, hfd]
  cases l <;> exact ⟨_, rfl, rfl, rfl⟩

/-- C10: formatError depends only on the error argument; the options,
including the CRITICAL and APPLICATION values handleFatalError passes,
have no effect on the formatted record. -/
theorem formatError_ignores_options (fmt : JSValue → Except JSValue JSValue) (e : JSValue)
    (o1 o2 : ErrorOptions) : formatError fmt e o1 = formatError fmt e o2 :=
  rfl

/-- C4: N identical handleError calls from a fresh manager raise the
counter under the key of their (category, level, message) triple to
exactly N, and a call whose effective triple differs leaves that counter
unchanged at any state. -/
theorem handleError_occurrence_counting (fmt fmt' : JSValue → Except JSValue JSValue)
    (e e' : JSValue) (c c' : Option ErrorCategory) (l l' : Option ErrorLevel)
    (ctx ctx' : Option JSValue) (n : Nat) (hn : 1 ≤ n)
    (hne : (effCategory ⟨c', l', ctx'⟩, effLevel ⟨c', l', ctx'⟩, msgOf e') ≠
           (effCategory ⟨c, l, ctx⟩, effLevel ⟨c, l, ctx⟩, msgOf e)) :
    mapGet (afterN fmt e ⟨c, l, ctx⟩ n ⟨[]⟩).errorCount (errorKeyOf ⟨c, l, ctx⟩ e) = some n ∧
    ∀ st, mapGet (stepState fmt' e' ⟨c', l', ctx'⟩ st).errorCount (errorKeyOf ⟨c, l, ctx⟩ e) =
          mapGet st.errorCount (errorKeyOf ⟨c, l, ctx⟩ e) := by
  constructor
  · have := (afterN_count fmt e ⟨c, l, ctx⟩ n ⟨[]⟩).2 hn
    simpa [mapGet] using this
  · intro st
    rw [stepState_eq]
    show mapGet (mapSet st.errorCount (errorKeyOf ⟨c', l', ctx'⟩ e') _) _ = _
    apply mapGet_set_other
    intro hkey
    obtain ⟨hc, hl, hm⟩ := errorKey_inj _ _ _ _ _ _ hkey
    exact hne (by rw [hc, hl, hm])

/-- Witness for C4: three calls with a NETWORK MAJOR string error count
to three, and a call with a different message string leaves the counter
untouched. -/
theorem handleError_occurrence_counting_witness :
    (1 ≤ 3 ∧
      (effCategory ⟨some .NETWORK, some .MAJOR, none⟩, effLevel ⟨some .NETWORK, some .MAJOR, none⟩,
        msgOf (.str "b")) ≠
      (effCategory ⟨some .NETWORK, some .MAJOR, none⟩, effLevel ⟨some .NETWORK, some .MAJOR, none⟩,
        msgOf (.str "a"))) ∧
    (mapGet (afterN idFormatter (.str "a") ⟨some .NETWORK, some .MAJOR, none⟩ 3 ⟨[]⟩).errorCount
        (errorKeyOf ⟨some .NETWORK, some .MAJOR, none⟩ (.str "a")) = some 3 ∧
      ∀ st, mapGet (stepState idFormatter (.str "b") ⟨some .NETWORK, some .MAJOR, none⟩ st).errorCount
          (errorKeyOf ⟨some .NETWORK, some .MAJOR, none⟩ (.str "a")) =
        mapGet st.errorCount (errorKeyOf ⟨some .NETWORK, some .MAJOR, none⟩ (.str "a"))) :=
  ⟨⟨by decide, by decide⟩,
    handleError_occurrence_counting idFormatter idFormatter (.str "a") (.str "b")
      (some .NETWORK) (some .NETWORK) (some .MAJOR) (some .MAJOR) none none 3
      (by decide) (by decide)⟩

/-- C6: handleFatalError formats at CRITICAL and APPLICATION, logs the
record with the FATAL ERROR prefix, and exits the process with code 1;
every other ErrorManager operation with process-control capability
returns with the normal outcome. -/
theorem handleFatalError_exits_one (fmt : JSValue → Except JSValue JSValue)
    (e eh er eu promise : JSValue) (opts : ErrorOptions) (st : ErrorManagerState) :
    (∃ fd, formatError fmt e ⟨some .APPLICATION, some .CRITICAL, none⟩ = .ok fd ∧
      handleFatalError fmt e st = .ok ⟨st, [⟨.error, "FATAL ERROR:", fd⟩], .exit 1⟩) ∧
    (∃ r, handleError fmt eh opts st = .ok r ∧ r.outcome = .normal) ∧
    (∃ r, handleUnhandledRejection fmt er promise st = .ok r ∧ r.outcome = .normal) ∧
    (∃ r, handleUncaughtException fmt eu st = .ok r ∧ r.outcome = .normal) ∧
    (managerInit st).outcome = .normal := by
  refine ⟨?_, ?_, ?_, ?_, rfl⟩
  · obtain ⟨fd, hfd⟩ := formatError_ok fmt e ⟨some .APPLICATION, some .CRITICAL, none⟩
    exact ⟨fd, hfd, by simp [handleFatalError, hfd]⟩
  · obtain ⟨r, hr, _, ho⟩ := handleError_shape fmt eh opts st
    exact ⟨r, hr, ho⟩
  · obtain ⟨fd, hfd⟩ := formatError_ok fmt er ⟨some .APPLICATION, some .MAJOR,
      some (.object [("promise", promise)])⟩
    exact ⟨⟨st, [⟨.error, "Unhandled Promise Rejection:", fd⟩], .normal⟩,
      by simp [handleUnhandledRejection, hfd], rfl⟩
  · obtain ⟨fd, hfd⟩ := formatError_ok fmt eu ⟨some .APPLICATION, some .CRITICAL, none⟩
    exact ⟨⟨st, [⟨.error, "Uncaught Exception:", fd⟩], .normal⟩,
      by simp [handleUncaughtException, hfd], rfl⟩

/-- C7: handleUnhandledRejection formats the reason at MAJOR and
APPLICATION with the promise as context, handleUncaughtException formats
the error at CRITICAL and APPLICATION, both log the formatted record on
the error channel, and both return with the normal outcome. -/
theorem rejection_and_exception_classification (fmt : JSValue → Except JSValue JSValue)
    (reason promise e : JSValue) (st : ErrorManagerState) :
    (∃ fd, formatError fmt reason ⟨some .APPLICATION, some .MAJOR,
        some (.object [("promise", promise)])⟩ = .ok fd ∧
      handleUnhandledRejection fmt reason promise st =
        .ok ⟨st, [⟨.error, "Unhandled Promise Rejection:", fd⟩], .normal⟩) ∧
    (∃ fd, formatError fmt e ⟨some .APPLICATION, some .CRITICAL, none⟩ = .ok fd ∧
      handleUncaughtException fmt e st =
        .ok ⟨st, [⟨.error, "Uncaught Exception:", fd⟩], .normal⟩) := by
  constructor
  · obtain ⟨fd, hfd⟩ := formatError_ok fmt reason ⟨some .APPLICATION, some .MAJOR,
      some (.object [("promise", promise)])⟩
    exact ⟨fd, hfd, by simp [handleUnhandledRejection, hfd]⟩
  · obtain ⟨fd, hfd⟩ := formatError_ok fmt e ⟨some .APPLICATION, some .CRITICAL, none⟩
    exact ⟨fd, hfd, by simp [handleUncaughtException, hfd]⟩

/-- C2: whenever OAuth is the selected method and the configuration has
no oauth section, authenticate returns the failed result with the
OAuth-configuration-is-missing error, without throwing and without
invoking any flow. -/
theorem authenticate_missing_oauth (performOAuthFlow : OAuthConfig → Except JSValue AuthResult)
    (apiKeyFlow : Option String → Except JSValue AuthResult)
    (hint : Option AuthMethod) (config : AuthConfig)
    (hsel : selectMethod hint config = .oauth) (hmiss : config.oauth = none) :
    authenticate performOAuthFlow apiKeyFlow hint config =
      .ok ⟨false, none, none, .failed, some "OAuth configuration is missing"⟩ := by
  simp [authenticate, hsel, hmiss]

/-- Witness for C2 at a config with no api key and no oauth section,
under flows that always throw. -/
theorem authenticate_missing_oauth_witness :
    (selectMethod none ⟨none, none, none, none, none, none⟩ = .oauth ∧
      (⟨none, none, none, none, none, none⟩ : AuthConfig).oauth = none) ∧
    authenticate (fun _ => .error .null) (fun _ => .error .null) none
        ⟨none, none, none, none, none, none⟩ =
      .ok ⟨false, none, none, .failed, some "OAuth configuration is missing"⟩ :=
  ⟨⟨rfl, rfl⟩,
    authenticate_missing_oauth (fun _ => .error .null) (fun _ => .error .null) none
      ⟨none, none, none, none, none, none⟩ rfl rfl⟩

/-- C8: the token-store contract round-trips: a save followed by a get of
the same key returns the saved token, and a delete followed by a get
returns null. -/
theorem tokenStore_roundtrip (s : TokenStoreModel) (k : String) (t : AuthToken) :
    getToken (saveToken s k t) k = some t ∧ getToken (deleteToken s k) k = none := by
  constructor
  · simp [getToken, saveToken]
  · simp only [getToken, deleteToken]
    have : (s.tokens.filter (fun p => p.1 ≠ k)).find? (fun p => p.1 = k) = none := by
      rw [List.find?_eq_none]
      intro p hp
      have := List.of_mem_filter hp
      simpa using this
    rw [this]

/-- One scheduling step preserves the single-flight invariant. -/
theorem sfStep_inv (s : SFState) (ev : SFEvent) (h : sfInv s) : sfInv (sfStep s ev) := by
  rcases s with ⟨fresh, infl, ex, p0, p1⟩
  rcases ev with c | _
  · cases c <;> cases fresh <;> cases infl <;> cases p0 <;> cases p1 <;>
      simp_all [sfInv, sfStep, SFState.phase, SFState.setPhase] <;> omega
  · cases fresh <;> cases infl <;> cases p0 <;> cases p1 <;>
      simp_all [sfInv, sfStep, releasePhase] <;> omega

/-- The single-flight invariant holds along every schedule. -/
theorem sfExec_inv (evs : List SFEvent) : sfInv (sfExec evs) := by
  have hinit : sfInv sfInit := by
    simp [sfInv, sfInit]
  rw [sfExec]
  generalize sfInit = s at hinit ⊢
  induction evs generalizing s with
  | nil => exact hinit
  | cons ev rest ih => exact ih _ (sfStep_inv s ev hinit)

/-- C9: along every cooperative schedule in which both getValidToken
callers complete, exactly one underlying refresh exchange was started;
and a caller that observes the in-flight marker on a token still needing
refresh awaits the shared result instead of starting its own exchange. -/
theorem singleFlight_refresh (evs : List SFEvent)
    (h0 : (sfExec evs).phase0 = .finished) (h1 : (sfExec evs).phase1 = .finished) :
    (sfExec evs).exchanges = 1 ∧
    ∀ (s : SFState) (c : Bool), s.phase c = .start → s.tokenFresh = false →
      s.inFlight = true → (sfStep s (.run c)).phase c = .awaitingShared := by
  constructor
  · exact (sfExec_inv evs).2.2.2.1 h0
  · intro s c hp hf hi
    rcases s with ⟨fresh, infl, ex, p0, p1⟩
    cases c <;> simp_all [sfStep, SFState.phase, SFState.setPhase]

/-- Witness for C9: the schedule where the first caller starts the
refresh, the second then observes it in flight, and the exchange
completes. -/
theorem singleFlight_refresh_witness :
    ((sfExec [.run false, .run true, .complete]).phase0 = .finished ∧
      (sfExec [.run false, .run true, .complete]).phase1 = .finished) ∧
    ((sfExec [.run false, .run true, .complete]).exchanges = 1 ∧
      ∀ (s : SFState) (c : Bool), s.phase c = .start → s.tokenFresh = false →
        s.inFlight = true → (sfStep s (.run c)).phase c = .awaitingShared) :=
  ⟨⟨by decide, by decide⟩,
    singleFlight_refresh [.run false, .run true, .complete] (by decide) (by decide)⟩

end ClaudeCode
